import Mathlib

/-!
Verification of the evm-cctp-contracts integration-test scripts.

A shallow embedding of the repository's Python scripts:
  * `src/anvil/crosschainTransferITV2.py` — the cross-chain transfer
    integration test (message patching, transaction confirmation polling,
    and the end-to-end test scenario);
  * `src/scripts/precomputeRemoteMessengerAddress.py` — the contract
    address precomputation script.

Byte strings are modelled as `List Nat` (each element a byte value),
text as `String` or `List Char`.  The external cryptographic primitives
(keccak256, the attester's ECDSA signing) and the blockchain client are
opaque to the scripts, so they enter the embedding as function
parameters; theorems quantify over them, adding only the interface
facts the scripts rely on (keccak256 returns 32 bytes).
-/

namespace CCTP

/-! ### Fixed configuration values (crosschainTransferITV2.py, lines 11-32) -/

def eth_domain : Nat := 0
def avax_domain : Nat := 1
def max_message_body_size : Nat := 8192
def message_version : Nat := 1
def message_body_version : Nat := 1
def minter_allowance : Nat := 1000
def mint_amount : Nat := 100
def max_burn_message_amount : Nat := 1000000
def finality_threshold_executed : Nat := 1000
def fee_executed : Nat := 5
def min_fee : Nat := 1

def nonce_index_start : Nat := 12
def nonce_length : Nat := 32
def finality_threshold_executed_start : Nat := 144
def finality_threshold_executed_length : Nat := 4
-- 148 is the start of the messageBody; 164 is the feeExecuted index in BurnMessageV2
def fee_executed_index_start : Nat := 148 + 164
def fee_executed_length : Nat := 32

/-! ### Python primitives used by the message patcher -/

/-- Python `bytearray` slice assignment `b[i:j] = v` (step 1, nonnegative
indices): the indices are clamped to `[0, len b]`, an empty slice is used
when the clamped stop precedes the clamped start, and the selected slice
is replaced by `v` (which may have any length). -/
def slice_assign (b : List Nat) (i j : Nat) (v : List Nat) : List Nat :=
  let start := min i b.length
  let stop := max start (min j b.length)
  b.take start ++ v ++ b.drop stop

/-- Python `n.to_bytes(width, "big")`: fixed-width big-endian byte encoding. -/
def to_bytes_be (width n : Nat) : List Nat :=
  (List.range width).map (fun k => n / 256 ^ (width - 1 - k) % 256)

/-- The UTF-8 bytes of the text `"nonce"` (the argument of
`Web3.keccak(text="nonce")`). -/
def utf8_nonce : List Nat :=
  (String.toList "nonce").map Char.toNat

/-- `update_and_sign_emitted_message` (crosschainTransferITV2.py, lines
161-182).  Inserts into the emitted message the nonce, feeExecuted, and
finalityThresholdExecuted fields, and then signs the message via the
attester.  `keccak` stands for `Web3.keccak` on bytes (32-byte digests);
`signHash` stands for `Account.from_key(keys["attester"]).signHash(·)
.signature`, the attester key's ECDSA signature of a digest.  Returns
`(signable_bytes, signed_bytes)`. -/
def update_and_sign_emitted_message
    (keccak : List Nat → List Nat) (signHash : List Nat → List Nat)
    (message_bytes : List Nat) : List Nat × List Nat :=
  let m1 := slice_assign message_bytes nonce_index_start
    (nonce_index_start + nonce_length) (keccak utf8_nonce)
  let m2 := slice_assign m1 finality_threshold_executed_start
    (finality_threshold_executed_start + finality_threshold_executed_length)
    (to_bytes_be 4 finality_threshold_executed)
  let m3 := slice_assign m2 fee_executed_index_start
    (fee_executed_index_start + fee_executed_length)
    (to_bytes_be 32 fee_executed)
  let signable_bytes := m3
  let signed_bytes := signHash (keccak signable_bytes)
  (signable_bytes, signed_bytes)

/-! ### Transaction confirmation polling (crosschainTransferITV2.py, lines 190-206)

A poll of the blockchain client for a transaction receipt is modelled as
`poll : Nat → Option Nat`: on iteration `i`, `poll i = none` means
`get_transaction_receipt` (or the subsequent attribute access) raised an
exception, and `poll i = some s` means a receipt with `status == s` was
returned.  The Python `raise RuntimeError(...)` is modelled as an
`Except` error value carrying the message's data (the transaction hash,
itself opaque and modelled as a `Nat`, and the timeout). -/

/-- The data of the `RuntimeError` message
`f"Transaction with hash {tx_hash} did not complete within {timeout} seconds"`. -/
inductive TxError where
  | confirmTimeout (tx_hash : Nat) (timeout : Nat)
deriving DecidableEq, Repr

/-- The `while counter < timeout` loop of `confirm_transaction`: on each
iteration the receipt fetch is attempted inside `try`; a receipt with
`status == 1` returns normally, any other outcome (a receipt with a
different status, or an exception, swallowed by the bare `except`)
advances the counter.  When the counter reaches the timeout the
`RuntimeError` is raised. -/
def confirm_go (poll : Nat → Option Nat) (tx_hash timeout counter : Nat) :
    Except TxError Unit :=
  if _h : counter < timeout then
    match poll counter with
    | some 1 => .ok ()
    | _ => confirm_go poll tx_hash timeout (counter + 1)
  else
    .error (.confirmTimeout tx_hash timeout)
termination_by timeout - counter
decreasing_by omega

/-- The default value of `confirm_transaction`'s `timeout` parameter. -/
def default_timeout : Nat := 30

/-- `confirm_transaction` (crosschainTransferITV2.py, lines 190-206):
waits until the transaction receipt associated with `tx_hash` confirms
completion, starting from `counter = 0`. -/
def confirm_transaction (poll : Nat → Option Nat) (tx_hash timeout : Nat) :
    Except TxError Unit :=
  confirm_go poll tx_hash timeout 0

/-- The confirmation step of `send_transaction` (crosschainTransferITV2.py,
lines 110-123): after building, signing and sending the transaction it
calls `self.confirm_transaction(tx_hash)` with the default timeout and
installs no exception handler, so `confirm_transaction`'s outcome is the
function's own outcome. -/
def send_transaction (poll : Nat → Option Nat) (tx_hash : Nat) :
    Except TxError Unit :=
  confirm_transaction poll tx_hash default_timeout

/-! ### The end-to-end test scenario (crosschainTransferITV2.py, lines 514-621)

The bodies of the transactions sent by `test_crosschain_transfer` execute
inside the (external, out-of-scope) Solidity contracts; the repository's
own content in that method is the sequence of calls it issues and the
literal values it asserts.  The method is embedded as that sequence. -/

/-- The two simulated chains. -/
inductive ChainId where
  | eth
  | avax
deriving DecidableEq, Repr

/-- The named test accounts appearing in `test_crosschain_transfer`. -/
inductive TestAccount where
  | eth_token_messenger_user
  | avax_token_messenger_user
  | eth_usdc_master_minter
  | avax_usdc_master_minter
  | eth_token_messenger_contract
  | avax_token_messenger_contract
deriving DecidableEq, Repr

/-- One step of the `test_crosschain_transfer` method body, in source
order: a sent transaction (`mint`, `approve`, `depositForBurn`,
`receiveMessage`), the parsing-and-signing of an emitted `MessageSent`
message, or an assertion (`verify_balances` /
`verify_fees_collected`). -/
inductive TestStep where
  | mint (chain : ChainId) (recipient : TestAccount) (amount : Nat)
  | approve (chain : ChainId) (spender : TestAccount) (amount : Nat)
  | depositForBurn (chain : ChainId) (amount : Nat)
      (destinationDomain : Nat) (mintRecipient : TestAccount)
      (destinationCaller : TestAccount) (maxFee : Nat)
      (minFinalityThreshold : Nat)
  | updateAndSignEmittedMessage (sourceChain : ChainId)
  | receiveMessage (chain : ChainId) (caller : TestAccount)
  | verifyBalances (eth_usdc_balance avax_usdc_balance : Nat)
  | verifyFeesCollected (eth_fees avax_fees : Nat)
deriving DecidableEq, Repr

/-- `test_crosschain_transfer` (crosschainTransferITV2.py, lines 514-621)
as its sequence of steps, each with the literal arguments the source
passes. -/
def test_crosschain_transfer : List TestStep :=
  [ .mint .avax .avax_token_messenger_user mint_amount,
    .mint .eth .eth_token_messenger_user mint_amount,
    .verifyBalances 100 100,
    .verifyFeesCollected 0 0,
    .approve .avax .avax_token_messenger_contract mint_amount,
    .depositForBurn .avax mint_amount eth_domain
      .eth_token_messenger_user .eth_token_messenger_user 10 1000,
    .verifyBalances 100 0,
    .verifyFeesCollected 0 0,
    .updateAndSignEmittedMessage .avax,
    .receiveMessage .eth .eth_token_messenger_user,
    .verifyBalances 195 0,
    .verifyFeesCollected 5 0,
    .approve .eth .eth_token_messenger_contract mint_amount,
    .depositForBurn .eth mint_amount avax_domain
      .avax_token_messenger_user .avax_token_messenger_user 10 1000,
    .verifyBalances 95 0,
    .verifyFeesCollected 5 0,
    .updateAndSignEmittedMessage .eth,
    .receiveMessage .avax .avax_token_messenger_user,
    .verifyBalances 95 95,
    .verifyFeesCollected 5 5 ]

/-- The `(expected_eth_usdc_balance, expected_avax_usdc_balance)` pairs
asserted by the `verify_balances` calls of a step sequence, in execution
order. -/
def assertedBalancePairs (steps : List TestStep) : List (Nat × Nat) :=
  steps.filterMap fun s =>
    match s with
    | .verifyBalances e a => some (e, a)
    | _ => none

/-- The `(expected_eth_fees, expected_avax_fees)` pairs asserted by the
`verify_fees_collected` calls of a step sequence, in execution order. -/
def assertedFeePairs (steps : List TestStep) : List (Nat × Nat) :=
  steps.filterMap fun s =>
    match s with
    | .verifyFeesCollected e a => some (e, a)
    | _ => none

/-- The `(chain, recipient, amount)` triples of the `mint` transactions of
a step sequence. -/
def mintCalls (steps : List TestStep) : List (ChainId × TestAccount × Nat) :=
  steps.filterMap fun s =>
    match s with
    | .mint c r a => some (c, r, a)
    | _ => none

/-- The source chains of the `depositForBurn` (burn) transactions of a
step sequence. -/
def burnChains (steps : List TestStep) : List ChainId :=
  steps.filterMap fun s =>
    match s with
    | .depositForBurn c _ _ _ _ _ _ => some c
    | _ => none

/-- The destination chains of the `receiveMessage` (mint) transactions of
a step sequence. -/
def receiveChains (steps : List TestStep) : List ChainId :=
  steps.filterMap fun s =>
    match s with
    | .receiveMessage c _ => some c
    | _ => none

/-! ### Address precomputation (precomputeRemoteMessengerAddress.py)

`compute_address` hashes the RLP encoding of the two-element list
`[sender_as_bytes, nonce]` (the `rlp` library serializes a byte string
and a big-endian, no-leading-zero integer, with the standard RLP length
headers) and keeps the last 40 characters of the hash's hex string.
`Web3.toBytes(hexstr=·)` is library glue and enters as the parameter
`toBytes`. -/

/-- Minimal big-endian byte encoding of a natural number (`0` encodes to
the empty byte string), as the `rlp` library's `big_endian_int` sedes
produces. -/
def be_bytes (n : Nat) : List Nat :=
  if n = 0 then [] else be_bytes (n / 256) ++ [n % 256]
termination_by n
decreasing_by exact Nat.div_lt_self (by omega) (by omega)

/-- RLP encoding of a byte string: a single byte below `0x80` is its own
encoding; otherwise a length header (`0x80 + len` for short strings,
`0xb7 + len-of-len` plus the big-endian length for long ones) precedes
the bytes. -/
def rlp_encode_bytes (bs : List Nat) : List Nat :=
  match bs with
  | [b] => if b < 128 then [b] else 129 :: bs
  | _ =>
    if bs.length ≤ 55 then (128 + bs.length) :: bs
    else (183 + (be_bytes bs.length).length) :: (be_bytes bs.length ++ bs)

/-- RLP encoding of a list from its already-encoded payload: `0xc0 + len`
for short payloads, `0xf7 + len-of-len` plus the big-endian length for
long ones. -/
def rlp_encode_list_payload (payload : List Nat) : List Nat :=
  if payload.length ≤ 55 then (192 + payload.length) :: payload
  else (247 + (be_bytes payload.length).length) :: (be_bytes payload.length ++ payload)

/-- `rlp.encode([sender_as_bytes, nonce])`: the RLP encoding of the
two-element list of the sender's address bytes and the integer nonce. -/
def rlp_encode_sender_nonce (sender_as_bytes : List Nat) (nonce : Nat) : List Nat :=
  rlp_encode_list_payload
    (rlp_encode_bytes sender_as_bytes ++ rlp_encode_bytes (be_bytes nonce))

/-- Lower-case hexadecimal digit character for a value below 16. -/
def hexDigit (n : Nat) : Char :=
  Char.ofNat (if n < 10 then 48 + n else 87 + n)

/-- The two lower-case hex characters of a byte. -/
def byteToHex (b : Nat) : List Char :=
  [hexDigit (b / 16), hexDigit (b % 16)]

/-- `Web3.toHex` on a byte string: `"0x"` followed by two lower-case hex
characters per byte. -/
def to_hex (bs : List Nat) : List Char :=
  Char.ofNat 48 :: Char.ofNat 120 :: (bs.map byteToHex).flatten

/-- `compute_address` (precomputeRemoteMessengerAddress.py, lines 8-15):
computes the address for a deployed contract given the address of the
sender and the current nonce — the last 40 characters (`[-40:]`) of
`Web3.toHex(Web3.keccak(rlp.encode([sender_as_bytes, nonce])))`. -/
def compute_address (keccak : List Nat → List Nat)
    (toBytes : List Char → List Nat) (sender : List Char) (nonce : Nat) :
    List Char :=
  let sender_as_bytes := toBytes sender
  let h := to_hex (keccak (rlp_encode_sender_nonce sender_as_bytes nonce))
  h.drop (h.length - 40)

/-- The environment variable name read by the script. -/
def deployer_key : String := "REMOTE_TOKEN_MESSENGER_DEPLOYER"

/-- The environment variable a remote domain id would live under; the
script never reads it. -/
def remote_domain_key : String := "REMOTE_DOMAIN"

/-- The fixed text of the appended `.env` line before the computed
address: `f"REMOTE_TOKEN_MESSENGER_ADDRESS=0x{...}\n"`. -/
def address_line_head : String := "REMOTE_TOKEN_MESSENGER_ADDRESS=0x"

/-- `os.getenv` over the key=value pairs `load_dotenv` put in the
environment: the value of the first pair with the given key. -/
def getenv (env : List (List Char × List Char)) (key : List Char) :
    Option (List Char) :=
  (env.find? (fun p => p.1 == key)).map Prod.snd

/-- `precompute_remote_token_messenger_address`
(precomputeRemoteMessengerAddress.py, lines 17-37): reads
`REMOTE_TOKEN_MESSENGER_DEPLOYER` from the environment, asks the remote
node (reached through the command-line RPC URL, abstracted into
`get_transaction_count`) for that address's transaction count, computes
the contract address, and appends one line to the `.env` file (opened in
mode `"a"`).  Returns the new file contents, or `none` when the deployer
variable is missing (the `web3` call then raises). -/
def precompute_remote_token_messenger_address
    (keccak : List Nat → List Nat) (toBytes : List Char → List Nat)
    (get_transaction_count : List Char → Nat)
    (env : List (List Char × List Char)) (env_file : List Char) :
    Option (List Char) :=
  match getenv env deployer_key.toList with
  | none => none
  | some remote_token_messenger_deployer =>
    let nonce := get_transaction_count remote_token_messenger_deployer
    let remote_token_messenger_address :=
      compute_address keccak toBytes remote_token_messenger_deployer nonce
    some (env_file ++ address_line_head.toList
      ++ remote_token_messenger_address ++ [Char.ofNat 10])

/-! ### Concrete stand-ins for the opaque primitives, used by witnesses -/

/-- A 32-byte stand-in digest function for witnesses. -/
def keccak_stub : List Nat → List Nat := fun _ => List.replicate 32 0

/-- A stand-in for the attester's signing primitive. -/
def sign_stub : List Nat → List Nat := fun _ => List.replicate 65 1

/-- A stand-in for `Web3.toBytes(hexstr=·)`. -/
def toBytes_stub : List Char → List Nat := fun _ => [1, 2, 3]

/-- A stand-in remote node always answering transaction count 7. -/
def gtc_stub : List Char → Nat := fun _ => 7

/-- A 344-byte message whose bytes are all 7, used by witnesses. -/
def msg344 : List Nat := List.replicate 344 7

/-- A concrete deployer address value for test environments. -/
def deployer_value : String := "0xab12"

/-- The text of a zero remote domain id. -/
def zero_str : String := "0"

/-- The text of a remote domain id of one. -/
def one_str : String := "1"

/-- A concrete environment whose `REMOTE_DOMAIN` is `"0"`. -/
def env_domain_zero : List (List Char × List Char) :=
  [(deployer_key.toList, deployer_value.toList),
   (remote_domain_key.toList, zero_str.toList)]

/-- The same environment except that `REMOTE_DOMAIN` is `"1"`. -/
def env_domain_one : List (List Char × List Char) :=
  [(deployer_key.toList, deployer_value.toList),
   (remote_domain_key.toList, one_str.toList)]

/-! ## Helper lemmas -/

theorem length_to_bytes_be (width n : Nat) : (to_bytes_be width n).length = width := by
  simp [to_bytes_be]

theorem slice_assign_of_le (b : List Nat) (i j : Nat) (v : List Nat)
    (hij : i ≤ j) (hj : j ≤ b.length) :
    slice_assign b i j v = b.take i ++ v ++ b.drop j := by
  have hi : i ≤ b.length := le_trans hij hj
  simp only [slice_assign]
  rw [min_eq_left hi, min_eq_left hj, max_eq_right hij]

theorem exists_split {α : Type _} (l : List α) (n : Nat) (h : n ≤ l.length) :
    ∃ x y, l = x ++ y ∧ x.length = n :=
  ⟨l.take n, l.drop n, (List.take_append_drop n l).symm, by
    rw [List.length_take]; omega⟩

theorem take_append_chunk {α : Type _} (x y : List α) (n k : Nat)
    (hx : x.length = n) : (x ++ y).take (n + k) = x ++ y.take k := by
  rw [← hx]; exact List.take_append k

theorem drop_append_chunk {α : Type _} (x y : List α) (n k : Nat)
    (hx : x.length = n) : (x ++ y).drop (n + k) = y.drop k := by
  rw [← hx]; exact List.drop_append k

/-- The patched message, for inputs of length at least 344: the bytes
before offset 12, between 44 and 144, between 148 and 312 and from 344 on
are those of the input, and the three patched ranges hold the keccak256
of `"nonce"`, the 4-byte big-endian 1000 and the 32-byte big-endian 5. -/
theorem update_patched_form (keccak signHash : List Nat → List Nat) (msg : List Nat)
    (hk : (keccak utf8_nonce).length = 32) (hlen : 344 ≤ msg.length) :
    (update_and_sign_emitted_message keccak signHash msg).1
      = msg.take 12 ++ (keccak utf8_nonce ++ ((msg.drop 44).take 100
        ++ (to_bytes_be 4 1000 ++ ((msg.drop 148).take 164
        ++ (to_bytes_be 32 5 ++ msg.drop 344))))) := by
  have unfold1 : (update_and_sign_emitted_message keccak signHash msg).1
      = slice_assign (slice_assign (slice_assign msg 12 44 (keccak utf8_nonce))
          144 148 (to_bytes_be 4 1000)) 312 344 (to_bytes_be 32 5) := rfl
  rw [unfold1]
  set K := keccak utf8_nonce with hKdef
  set F := to_bytes_be 4 1000 with hFdef
  set E := to_bytes_be 32 5 with hEdef
  have hF : F.length = 4 := by rw [hFdef]; exact length_to_bytes_be 4 1000
  obtain ⟨a, r1, rfl, ha⟩ := exists_split msg 12 (by omega)
  have h1 : 332 ≤ r1.length := by
    have h := hlen; rw [List.length_append, ha] at h; omega
  obtain ⟨b, r2, rfl, hb⟩ := exists_split r1 32 (by omega)
  have h2 : 300 ≤ r2.length := by
    have h := h1; rw [List.length_append, hb] at h; omega
  obtain ⟨c, r3, rfl, hc⟩ := exists_split r2 100 (by omega)
  have h3 : 200 ≤ r3.length := by
    have h := h2; rw [List.length_append, hc] at h; omega
  obtain ⟨d, r4, rfl, hd⟩ := exists_split r3 4 (by omega)
  have h4 : 196 ≤ r4.length := by
    have h := h3; rw [List.length_append, hd] at h; omega
  obtain ⟨e, r5, rfl, he⟩ := exists_split r4 164 (by omega)
  have h5 : 32 ≤ r5.length := by
    have h := h4; rw [List.length_append, he] at h; omega
  obtain ⟨f, rest, rfl, hf⟩ := exists_split r5 32 (by omega)
  have hLen : (a ++ (b ++ (c ++ (d ++ (e ++ (f ++ rest)))))).length
      = 344 + rest.length := by
    simp [List.length_append, ha, hb, hc, hd, he, hf]; omega
  have hLen1 : (a ++ (K ++ (c ++ (d ++ (e ++ (f ++ rest)))))).length
      = 344 + rest.length := by
    simp [List.length_append, ha, hk, hc, hd, he, hf]; omega
  have hLen2 : (a ++ (K ++ (c ++ (F ++ (e ++ (f ++ rest)))))).length
      = 344 + rest.length := by
    simp [List.length_append, ha, hk, hc, hF, he, hf]; omega
  have step1 : slice_assign (a ++ (b ++ (c ++ (d ++ (e ++ (f ++ rest)))))) 12 44 K
      = a ++ (K ++ (c ++ (d ++ (e ++ (f ++ rest))))) := by
    rw [slice_assign_of_le _ _ _ _ (by omega) (by rw [hLen]; omega)]
    rw [List.take_left' ha]
    rw [show (44 : Nat) = 12 + 32 from rfl, drop_append_chunk a _ 12 32 ha,
      List.drop_left' hb]
    simp [List.append_assoc]
  have step2 : slice_assign (a ++ (K ++ (c ++ (d ++ (e ++ (f ++ rest)))))) 144 148 F
      = a ++ (K ++ (c ++ (F ++ (e ++ (f ++ rest))))) := by
    rw [slice_assign_of_le _ _ _ _ (by omega) (by rw [hLen1]; omega)]
    rw [show (144 : Nat) = 12 + 132 from rfl, take_append_chunk a _ 12 132 ha,
      show (132 : Nat) = 32 + 100 from rfl, take_append_chunk K _ 32 100 hk,
      List.take_left' hc]
    rw [show (148 : Nat) = 12 + 136 from rfl, drop_append_chunk a _ 12 136 ha,
      show (136 : Nat) = 32 + 104 from rfl, drop_append_chunk K _ 32 104 hk,
      show (104 : Nat) = 100 + 4 from rfl, drop_append_chunk c _ 100 4 hc,
      List.drop_left' hd]
    simp [List.append_assoc]
  have step3 : slice_assign (a ++ (K ++ (c ++ (F ++ (e ++ (f ++ rest)))))) 312 344 E
      = a ++ (K ++ (c ++ (F ++ (e ++ (E ++ rest))))) := by
    rw [slice_assign_of_le _ _ _ _ (by omega) (by rw [hLen2]; omega)]
    rw [show (312 : Nat) = 12 + 300 from rfl, take_append_chunk a _ 12 300 ha,
      show (300 : Nat) = 32 + 268 from rfl, take_append_chunk K _ 32 268 hk,
      show (268 : Nat) = 100 + 168 from rfl, take_append_chunk c _ 100 168 hc,
      show (168 : Nat) = 4 + 164 from rfl, take_append_chunk F _ 4 164 hF,
      List.take_left' he]
    rw [show (344 : Nat) = 12 + 332 from rfl, drop_append_chunk a _ 12 332 ha,
      show (332 : Nat) = 32 + 300 from rfl, drop_append_chunk K _ 32 300 hk,
      show (300 : Nat) = 100 + 200 from rfl, drop_append_chunk c _ 100 200 hc,
      show (200 : Nat) = 4 + 196 from rfl, drop_append_chunk F _ 4 196 hF,
      show (196 : Nat) = 164 + 32 from rfl, drop_append_chunk e _ 164 32 he,
      List.drop_left' hf]
    simp [List.append_assoc]
  rw [step1, step2, step3]
  have pd44 : (a ++ (b ++ (c ++ (d ++ (e ++ (f ++ rest)))))).drop 44
      = c ++ (d ++ (e ++ (f ++ rest))) := by
    rw [show (44 : Nat) = 12 + 32 from rfl, drop_append_chunk a _ 12 32 ha,
      List.drop_left' hb]
  have pd148 : (a ++ (b ++ (c ++ (d ++ (e ++ (f ++ rest)))))).drop 148
      = e ++ (f ++ rest) := by
    rw [show (148 : Nat) = 12 + 136 from rfl, drop_append_chunk a _ 12 136 ha,
      show (136 : Nat) = 32 + 104 from rfl, drop_append_chunk b _ 32 104 hb,
      show (104 : Nat) = 100 + 4 from rfl, drop_append_chunk c _ 100 4 hc,
      List.drop_left' hd]
  have pd344 : (a ++ (b ++ (c ++ (d ++ (e ++ (f ++ rest)))))).drop 344 = rest := by
    rw [show (344 : Nat) = 12 + 332 from rfl, drop_append_chunk a _ 12 332 ha,
      show (332 : Nat) = 32 + 300 from rfl, drop_append_chunk b _ 32 300 hb,
      show (300 : Nat) = 100 + 200 from rfl, drop_append_chunk c _ 100 200 hc,
      show (200 : Nat) = 4 + 196 from rfl, drop_append_chunk d _ 4 196 hd,
      show (196 : Nat) = 164 + 32 from rfl, drop_append_chunk e _ 164 32 he,
      List.drop_left' hf]
  rw [List.take_left' ha, pd44, pd148, pd344, List.take_left' hc, List.take_left' he]

/-! ## Claim theorems -/

/-- C1: for every emitted message of length at least 344 bytes,
`update_and_sign_emitted_message` returns a pair `(patched, signature)`
where `patched` equals the input with bytes `[12, 44)` replaced by the
keccak256 of the UTF-8 text `"nonce"`, bytes `[144, 148)` replaced by the
4-byte big-endian encoding of 1000 (`finality_threshold_executed`), and
bytes `[312, 344)` (offset 148 + 164) replaced by the 32-byte big-endian
encoding of 5 (`fee_executed`), and `signature` is the attester key's
ECDSA signature (`signHash`) of the keccak256 hash of the patched
bytes. -/
theorem update_and_sign_patches_and_signs (keccak signHash : List Nat → List Nat)
    (msg : List Nat) (hk : (keccak utf8_nonce).length = 32)
    (hlen : 344 ≤ msg.length) :
    (update_and_sign_emitted_message keccak signHash msg).1
      = msg.take 12 ++ (keccak utf8_nonce ++ ((msg.drop 44).take 100
        ++ (to_bytes_be 4 1000 ++ ((msg.drop 148).take 164
        ++ (to_bytes_be 32 5 ++ msg.drop 344)))))
    ∧ (update_and_sign_emitted_message keccak signHash msg).2
      = signHash (keccak (update_and_sign_emitted_message keccak signHash msg).1) :=
  ⟨update_patched_form keccak signHash msg hk hlen, rfl⟩

/-- Witness for C1 at a concrete 344-byte message and concrete
primitives. -/
theorem update_and_sign_patches_and_signs_witness :
    (keccak_stub utf8_nonce).length = 32 ∧ 344 ≤ msg344.length ∧
    ((update_and_sign_emitted_message keccak_stub sign_stub msg344).1
      = msg344.take 12 ++ (keccak_stub utf8_nonce ++ ((msg344.drop 44).take 100
        ++ (to_bytes_be 4 1000 ++ ((msg344.drop 148).take 164
        ++ (to_bytes_be 32 5 ++ msg344.drop 344)))))
    ∧ (update_and_sign_emitted_message keccak_stub sign_stub msg344).2
      = sign_stub (keccak_stub
          (update_and_sign_emitted_message keccak_stub sign_stub msg344).1)) :=
  ⟨by simp [keccak_stub], by rw [msg344, List.length_replicate],
    update_and_sign_patches_and_signs keccak_stub sign_stub msg344
      (by simp [keccak_stub]) (by rw [msg344, List.length_replicate])⟩

/-- C9: `update_and_sign_emitted_message` does not validate the input
message's length: on the empty byte string the returned patched message
has 68 bytes (the three out-of-range slice assignments append the
32-byte nonce, the 4-byte finality threshold and the 32-byte fee instead
of failing), a length different from the input's. -/
theorem update_and_sign_no_length_validation (keccak signHash : List Nat → List Nat)
    (hk : (keccak utf8_nonce).length = 32) :
    ((update_and_sign_emitted_message keccak signHash []).1).length = 68
    ∧ ((update_and_sign_emitted_message keccak signHash []).1).length
        ≠ ([] : List Nat).length := by
  have h1 : (update_and_sign_emitted_message keccak signHash []).1
      = slice_assign (slice_assign (slice_assign [] 12 44 (keccak utf8_nonce))
          144 148 (to_bytes_be 4 1000)) 312 344 (to_bytes_be 32 5) := rfl
  have e1 : slice_assign [] 12 44 (keccak utf8_nonce) = keccak utf8_nonce := by
    simp [slice_assign]
  have e2 : slice_assign (keccak utf8_nonce) 144 148 (to_bytes_be 4 1000)
      = keccak utf8_nonce ++ to_bytes_be 4 1000 := by
    simp [slice_assign, hk, List.take_of_length_le, List.drop_eq_nil_of_le]
  have e3 : slice_assign (keccak utf8_nonce ++ to_bytes_be 4 1000) 312 344
        (to_bytes_be 32 5)
      = (keccak utf8_nonce ++ to_bytes_be 4 1000) ++ to_bytes_be 32 5 := by
    simp [slice_assign, hk, length_to_bytes_be, List.length_append,
      List.take_of_length_le, List.drop_eq_nil_of_le]
  have hlen68 : ((update_and_sign_emitted_message keccak signHash []).1).length
      = 68 := by
    rw [h1, e1, e2, e3]
    simp [List.length_append, hk, length_to_bytes_be]
  exact ⟨hlen68, by rw [hlen68]; simp⟩

/-- Witness for C9 at concrete primitives. -/
theorem update_and_sign_no_length_validation_witness :
    (keccak_stub utf8_nonce).length = 32 ∧
    (((update_and_sign_emitted_message keccak_stub sign_stub []).1).length = 68
    ∧ ((update_and_sign_emitted_message keccak_stub sign_stub []).1).length
        ≠ ([] : List Nat).length) :=
  ⟨by simp [keccak_stub],
    update_and_sign_no_length_validation keccak_stub sign_stub (by simp [keccak_stub])⟩

/-- C5: for every input message of length at least 344 bytes,
`update_and_sign_emitted_message` performs a pure fixed-offset patch: the
returned patched message has exactly the same length as the input, and
every byte outside the three fixed ranges `[12, 44)`, `[144, 148)` and
`[312, 344)` is unchanged.  (The embedding of the function is a pure
function of its arguments — the source takes no branch and mutates
nothing but its local `bytearray` copy of the message.) -/
theorem update_and_sign_frame (keccak signHash : List Nat → List Nat)
    (msg : List Nat) (hk : (keccak utf8_nonce).length = 32)
    (hlen : 344 ≤ msg.length) :
    ((update_and_sign_emitted_message keccak signHash msg).1).length = msg.length
    ∧ ∀ i : Nat, (i < 12 ∨ (44 ≤ i ∧ i < 144) ∨ (148 ≤ i ∧ i < 312) ∨ 344 ≤ i) →
        ((update_and_sign_emitted_message keccak signHash msg).1)[i]?
          = msg[i]? := by
  have hp := update_patched_form keccak signHash msg hk hlen
  rw [hp]
  have hT12 : (msg.take 12).length = 12 := by rw [List.length_take]; omega
  have hC : ((msg.drop 44).take 100).length = 100 := by
    rw [List.length_take, List.length_drop]; omega
  have hT164 : ((msg.drop 148).take 164).length = 164 := by
    rw [List.length_take, List.length_drop]; omega
  have hF4 : (to_bytes_be 4 1000).length = 4 := length_to_bytes_be 4 1000
  have hE32 : (to_bytes_be 32 5).length = 32 := length_to_bytes_be 32 5
  constructor
  · simp only [List.length_append, hT12, hk, hC, hF4, hT164, hE32,
      List.length_drop]
    omega
  · intro i hi
    rcases hi with h | ⟨h1, h2⟩ | ⟨h1, h2⟩ | h
    · rw [List.getElem?_append_left (by rw [hT12]; omega)]
      rw [List.getElem?_take, if_pos h]
    · rw [List.getElem?_append_right (by rw [hT12]; omega), hT12]
      rw [List.getElem?_append_right (by rw [hk]; omega), hk]
      rw [List.getElem?_append_left (by rw [hC]; omega)]
      rw [List.getElem?_take, if_pos (by omega), List.getElem?_drop,
        show 44 + (i - 12 - 32) = i by omega]
    · rw [List.getElem?_append_right (by rw [hT12]; omega), hT12]
      rw [List.getElem?_append_right (by rw [hk]; omega), hk]
      rw [List.getElem?_append_right (by rw [hC]; omega), hC]
      rw [List.getElem?_append_right (by rw [hF4]; omega), hF4]
      rw [List.getElem?_append_left (by rw [hT164]; omega)]
      rw [List.getElem?_take, if_pos (by omega), List.getElem?_drop,
        show 148 + (i - 12 - 32 - 100 - 4) = i by omega]
    · rw [List.getElem?_append_right (by rw [hT12]; omega), hT12]
      rw [List.getElem?_append_right (by rw [hk]; omega), hk]
      rw [List.getElem?_append_right (by rw [hC]; omega), hC]
      rw [List.getElem?_append_right (by rw [hF4]; omega), hF4]
      rw [List.getElem?_append_right (by rw [hT164]; omega), hT164]
      rw [List.getElem?_append_right (by rw [hE32]; omega), hE32]
      rw [List.getElem?_drop,
        show 344 + (i - 12 - 32 - 100 - 4 - 164 - 32) = i by omega]

/-- Witness for C5 at a concrete 344-byte message and concrete
primitives. -/
theorem update_and_sign_frame_witness :
    (keccak_stub utf8_nonce).length = 32 ∧ 344 ≤ msg344.length ∧
    (((update_and_sign_emitted_message keccak_stub sign_stub msg344).1).length
        = msg344.length
    ∧ ∀ i : Nat, (i < 12 ∨ (44 ≤ i ∧ i < 144) ∨ (148 ≤ i ∧ i < 312) ∨ 344 ≤ i) →
        ((update_and_sign_emitted_message keccak_stub sign_stub msg344).1)[i]?
          = msg344[i]?) :=
  ⟨by simp [keccak_stub], by rw [msg344, List.length_replicate],
    update_and_sign_frame keccak_stub sign_stub msg344
      (by simp [keccak_stub]) (by rw [msg344, List.length_replicate])⟩

/-! ### Unfolding lemmas for the confirmation loop -/

theorem confirm_go_timeout (poll : Nat → Option Nat) (tx_hash t c : Nat)
    (h : ¬ c < t) :
    confirm_go poll tx_hash t c = .error (.confirmTimeout tx_hash t) := by
  rw [confirm_go, dif_neg h]

theorem confirm_go_one (poll : Nat → Option Nat) (tx_hash t c : Nat)
    (h : c < t) (hp : poll c = some 1) :
    confirm_go poll tx_hash t c = .ok () := by
  rw [confirm_go, dif_pos h, hp]

theorem confirm_go_none (poll : Nat → Option Nat) (tx_hash t c : Nat)
    (h : c < t) (hp : poll c = none) :
    confirm_go poll tx_hash t c = confirm_go poll tx_hash t (c + 1) := by
  rw [confirm_go, dif_pos h, hp]

theorem confirm_go_not_one (poll : Nat → Option Nat) (tx_hash t c s : Nat)
    (h : c < t) (hp : poll c = some s) (hs : s ≠ 1) :
    confirm_go poll tx_hash t c = confirm_go poll tx_hash t (c + 1) := by
  rw [confirm_go, dif_pos h, hp]
  rcases s with _ | s
  · rfl
  · rcases s with _ | s
    · exact absurd rfl hs
    · rfl

/-- The loop returns normally exactly when some polled receipt within the
budget has success status. -/
theorem confirm_go_ok_iff (poll : Nat → Option Nat) (tx_hash t : Nat) :
    ∀ n c, t - c = n →
      (confirm_go poll tx_hash t c = .ok ()
        ↔ ∃ i, c ≤ i ∧ i < t ∧ poll i = some 1) := by
  intro n
  induction n with
  | zero =>
    intro c hc
    rw [confirm_go_timeout poll tx_hash t c (by omega)]
    constructor
    · intro h; exact absurd h (by simp)
    · rintro ⟨i, h1, h2, _⟩; omega
  | succ n ih =>
    intro c hc
    cases hp : poll c with
    | none =>
      rw [confirm_go_none poll tx_hash t c (by omega) hp, ih (c + 1) (by omega)]
      constructor
      · rintro ⟨i, h1, h2, h3⟩; exact ⟨i, by omega, h2, h3⟩
      · rintro ⟨i, h1, h2, h3⟩
        rcases Nat.eq_or_lt_of_le h1 with rfl | hlt
        · rw [hp] at h3; exact Option.noConfusion h3
        · exact ⟨i, by omega, h2, h3⟩
    | some s =>
      by_cases hs : s = 1
      · subst hs
        rw [confirm_go_one poll tx_hash t c (by omega) hp]
        constructor
        · intro _; exact ⟨c, Nat.le_refl c, by omega, hp⟩
        · intro _; rfl
      · rw [confirm_go_not_one poll tx_hash t c s (by omega) hp hs,
          ih (c + 1) (by omega)]
        constructor
        · rintro ⟨i, h1, h2, h3⟩; exact ⟨i, by omega, h2, h3⟩
        · rintro ⟨i, h1, h2, h3⟩
          rcases Nat.eq_or_lt_of_le h1 with rfl | hlt
          · rw [hp] at h3; exact absurd (Option.some.inj h3) hs
          · exact ⟨i, by omega, h2, h3⟩

/-- The loop has exactly two outcomes: normal return, or the timeout
`RuntimeError` carrying the transaction hash and the timeout. -/
theorem confirm_go_ok_or_timeout (poll : Nat → Option Nat) (tx_hash t : Nat) :
    ∀ n c, t - c = n →
      (confirm_go poll tx_hash t c = .ok ()
        ∨ confirm_go poll tx_hash t c = .error (.confirmTimeout tx_hash t)) := by
  intro n
  induction n with
  | zero =>
    intro c hc
    exact Or.inr (confirm_go_timeout poll tx_hash t c (by omega))
  | succ n ih =>
    intro c hc
    cases hp : poll c with
    | none =>
      rw [confirm_go_none poll tx_hash t c (by omega) hp]
      exact ih (c + 1) (by omega)
    | some s =>
      by_cases hs : s = 1
      · subst hs
        exact Or.inl (confirm_go_one poll tx_hash t c (by omega) hp)
      · rw [confirm_go_not_one poll tx_hash t c s (by omega) hp hs]
        exact ih (c + 1) (by omega)

/-- C3: for every transaction hash, `confirm_transaction` raises the
timeout `RuntimeError` if and only if no receipt polled within the fixed
budget of `timeout` iterations has success status (`status == 1`); it
returns normally if and only if some poll within the budget observes
`status == 1`.  (The loop is total, so it always finishes within the
hard timeout; the fixed 1-second `time.sleep(1)` between polls is
real-time behaviour outside the embedding.) -/
theorem confirm_transaction_timeout_iff (poll : Nat → Option Nat)
    (tx_hash timeout : Nat) :
    (confirm_transaction poll tx_hash timeout
        = .error (.confirmTimeout tx_hash timeout)
      ↔ ∀ i, i < timeout → poll i ≠ some 1)
    ∧ (confirm_transaction poll tx_hash timeout = .ok ()
      ↔ ∃ i, i < timeout ∧ poll i = some 1) := by
  have hok := confirm_go_ok_iff poll tx_hash timeout (timeout - 0) 0 rfl
  have hdisj := confirm_go_ok_or_timeout poll tx_hash timeout (timeout - 0) 0 rfl
  unfold confirm_transaction
  constructor
  · constructor
    · intro herr i hi hp1
      have hok2 : confirm_go poll tx_hash timeout 0 = .ok () :=
        hok.mpr ⟨i, Nat.zero_le i, hi, hp1⟩
      rw [hok2] at herr
      exact Except.noConfusion herr
    · intro hall
      rcases hdisj with hok2 | herr2
      · obtain ⟨i, _, hi, hp⟩ := hok.mp hok2
        exact absurd hp (hall i hi)
      · exact herr2
  · constructor
    · intro h
      obtain ⟨i, _, hi, hp⟩ := hok.mp h
      exact ⟨i, hi, hp⟩
    · rintro ⟨i, hi, hp⟩
      exact hok.mpr ⟨i, Nat.zero_le i, hi, hp⟩

/-- Witness for C3 at a concrete poll sequence (all receipts reverted). -/
theorem confirm_transaction_timeout_iff_witness :
    (confirm_transaction (fun _ => some 0) 5 3
        = .error (.confirmTimeout 5 3)
      ↔ ∀ i, i < 3 → (fun _ : Nat => some (0 : Nat)) i ≠ some 1)
    ∧ (confirm_transaction (fun _ => some 0) 5 3 = .ok ()
      ↔ ∃ i, i < 3 ∧ (fun _ : Nat => some (0 : Nat)) i = some 1) :=
  confirm_transaction_timeout_iff (fun _ => some 0) 5 3

/-- C8: the bare `except` suppresses every exception raised while
fetching the receipt, so `confirm_transaction`'s only possible outcomes
are a normal return and the timeout `RuntimeError` (the only exception it
itself raises), and polls that raise (modelled `none`) or observe a
status-0 receipt never cause an early exit: they lead to the timeout
error. -/
theorem confirm_transaction_swallows_exceptions (poll : Nat → Option Nat)
    (tx_hash timeout : Nat) :
    (confirm_transaction poll tx_hash timeout = .ok ()
      ∨ confirm_transaction poll tx_hash timeout
          = .error (.confirmTimeout tx_hash timeout))
    ∧ ((∀ i, i < timeout → poll i = none ∨ poll i = some 0) →
        confirm_transaction poll tx_hash timeout
          = .error (.confirmTimeout tx_hash timeout)) := by
  have hok := confirm_go_ok_iff poll tx_hash timeout (timeout - 0) 0 rfl
  have hdisj := confirm_go_ok_or_timeout poll tx_hash timeout (timeout - 0) 0 rfl
  unfold confirm_transaction
  refine ⟨hdisj, ?_⟩
  intro hall
  rcases hdisj with hok2 | herr2
  · obtain ⟨i, _, hi, hp⟩ := hok.mp hok2
    rcases hall i hi with h | h
    · rw [h] at hp; exact Option.noConfusion hp
    · rw [h] at hp; exact absurd (Option.some.inj hp) (by decide)
  · exact herr2

/-- Witness for C8 at a poll sequence that always raises. -/
theorem confirm_transaction_swallows_exceptions_witness :
    ((confirm_transaction (fun _ => none) 9 4 = .ok ()
      ∨ confirm_transaction (fun _ => none) 9 4
          = .error (.confirmTimeout 9 4))
    ∧ ((∀ i, i < 4 → (fun _ : Nat => (none : Option Nat)) i = none
          ∨ (fun _ : Nat => (none : Option Nat)) i = some 0) →
        confirm_transaction (fun _ => none) 9 4
          = .error (.confirmTimeout 9 4))) :=
  confirm_transaction_swallows_exceptions (fun _ => none) 9 4

/-- C7: a reverted transaction (every polled receipt has status 0, never
success) makes the confirmation loop raise the timeout `RuntimeError`,
which `send_transaction` does not catch: it has no handler, no retry and
no partial-failure handling, so its outcome is exactly
`confirm_transaction`'s outcome and the error propagates to the caller
uncaught. -/
theorem send_transaction_no_recovery (poll : Nat → Option Nat) (tx_hash : Nat)
    (hrev : ∀ i, poll i = some 0) :
    send_transaction poll tx_hash
        = .error (.confirmTimeout tx_hash default_timeout)
    ∧ send_transaction poll tx_hash
        = confirm_transaction poll tx_hash default_timeout := by
  refine ⟨?_, rfl⟩
  unfold send_transaction confirm_transaction
  rcases confirm_go_ok_or_timeout poll tx_hash default_timeout
      (default_timeout - 0) 0 rfl with hok2 | herr2
  · obtain ⟨i, _, hi, hp⟩ :=
      (confirm_go_ok_iff poll tx_hash default_timeout
        (default_timeout - 0) 0 rfl).mp hok2
    rw [hrev i] at hp
    exact absurd (Option.some.inj hp) (by decide)
  · exact herr2

/-- Witness for C7 at a poll sequence whose receipts are all reverted. -/
theorem send_transaction_no_recovery_witness :
    (∀ i : Nat, (fun _ : Nat => some (0 : Nat)) i = some 0) ∧
    (send_transaction (fun _ => some 0) 5
        = .error (.confirmTimeout 5 default_timeout)
    ∧ send_transaction (fun _ => some 0) 5
        = confirm_transaction (fun _ => some 0) 5 default_timeout) :=
  ⟨fun _ => rfl, send_transaction_no_recovery (fun _ => some 0) 5 (fun _ => rfl)⟩

/-- C2: in the single end-to-end scenario `test_crosschain_transfer`,
after minting 100 units to the user on each chain and performing
burn-and-mint across chains twice (depositForBurn on AVAX then
receiveMessage on ETH, depositForBurn on ETH then receiveMessage on
AVAX), the asserted `(eth_user, avax_user)` balance pairs in execution
order are (100,100), (100,0), (195,0), (95,0), (95,95), and the asserted
`(eth, avax)` collected-fee pairs at the same checkpoints are (0,0),
(0,0), (5,0), (5,0), (5,5). -/
theorem test_crosschain_transfer_assertions :
    assertedBalancePairs test_crosschain_transfer
        = [(100, 100), (100, 0), (195, 0), (95, 0), (95, 95)]
    ∧ assertedFeePairs test_crosschain_transfer
        = [(0, 0), (0, 0), (5, 0), (5, 0), (5, 5)]
    ∧ mintCalls test_crosschain_transfer
        = [(ChainId.avax, TestAccount.avax_token_messenger_user, 100),
           (ChainId.eth, TestAccount.eth_token_messenger_user, 100)]
    ∧ burnChains test_crosschain_transfer = [ChainId.avax, ChainId.eth]
    ∧ receiveChains test_crosschain_transfer = [ChainId.eth, ChainId.avax] :=
  ⟨rfl, rfl, rfl, rfl, rfl⟩

/-! ### Hex-string lemmas for `compute_address` -/

theorem length_flatten_byteToHex (bs : List Nat) :
    ((bs.map byteToHex).flatten).length = 2 * bs.length := by
  induction bs with
  | nil => simp
  | cons b t ih =>
    simp [byteToHex, ih]
    omega

theorem drop_flatten_byteToHex (bs : List Nat) :
    ∀ k, ((bs.map byteToHex).flatten).drop (2 * k)
      = (((bs.drop k).map byteToHex).flatten) := by
  induction bs with
  | nil => intro k; simp
  | cons b t ih =>
    intro k
    cases k with
    | zero => simp
    | succ k =>
      have hlb : (2 : Nat) * (k + 1) = (byteToHex b).length + 2 * k := by
        simp [byteToHex]
        omega
      rw [List.map_cons, List.flatten_cons, hlb, List.drop_append,
        List.drop_succ_cons]
      exact ih k

/-- C4: for every sender hex address and nonce, `compute_address` returns
the contract address precomputed from the sender and nonce as the lowest
20 bytes (the last 40 hex characters) of the keccak256 hash of the RLP
encoding of the two-element list `[sender_as_bytes, nonce]`. -/
theorem compute_address_last_20_bytes (keccak : List Nat → List Nat)
    (toBytes : List Char → List Nat) (sender : List Char) (nonce : Nat)
    (hk : (keccak (rlp_encode_sender_nonce (toBytes sender) nonce)).length = 32) :
    compute_address keccak toBytes sender nonce
      = (((keccak (rlp_encode_sender_nonce (toBytes sender) nonce)).drop 12).map
          byteToHex).flatten := by
  have e : compute_address keccak toBytes sender nonce
      = (Char.ofNat 48 :: Char.ofNat 120
          :: ((keccak (rlp_encode_sender_nonce (toBytes sender) nonce)).map
              byteToHex).flatten).drop
        ((Char.ofNat 48 :: Char.ofNat 120
          :: ((keccak (rlp_encode_sender_nonce (toBytes sender) nonce)).map
              byteToHex).flatten).length - 40) := rfl
  rw [e]
  have hlen : (Char.ofNat 48 :: Char.ofNat 120
      :: ((keccak (rlp_encode_sender_nonce (toBytes sender) nonce)).map
          byteToHex).flatten).length = 66 := by
    rw [List.length_cons, List.length_cons, length_flatten_byteToHex, hk]
  rw [hlen]
  rw [show (66 : Nat) - 40 = 24 + 1 + 1 from rfl]
  rw [List.drop_succ_cons, List.drop_succ_cons]
  rw [show (24 : Nat) = 2 * 12 from rfl]
  exact drop_flatten_byteToHex
    (keccak (rlp_encode_sender_nonce (toBytes sender) nonce)) 12

/-- Witness for C4 at concrete primitives, the empty sender string and
nonce 0. -/
theorem compute_address_last_20_bytes_witness :
    (keccak_stub (rlp_encode_sender_nonce (toBytes_stub []) 0)).length = 32 ∧
    compute_address keccak_stub toBytes_stub [] 0
      = (((keccak_stub (rlp_encode_sender_nonce (toBytes_stub []) 0)).drop 12).map
          byteToHex).flatten :=
  ⟨by simp [keccak_stub],
    compute_address_last_20_bytes keccak_stub toBytes_stub [] 0
      (by simp [keccak_stub])⟩

/-! ### Lemmas about the characters of a computed address -/

theorem hexDigit_ne_newline : ∀ n, n < 16 → hexDigit n ≠ Char.ofNat 10 := by
  decide

/-- Every character of a computed address is `'0'`, `'x'`, or a hex digit
(assuming the digest function returns bytes). -/
theorem compute_address_chars (keccak : List Nat → List Nat)
    (toBytes : List Char → List Nat) (sender : List Char) (nonce : Nat)
    (hb : ∀ s, ∀ b ∈ keccak s, b < 256) :
    ∀ ch ∈ compute_address keccak toBytes sender nonce,
      ch = Char.ofNat 48 ∨ ch = Char.ofNat 120
        ∨ ∃ n, n < 16 ∧ ch = hexDigit n := by
  intro ch hch
  have e : compute_address keccak toBytes sender nonce
      = (to_hex (keccak (rlp_encode_sender_nonce (toBytes sender) nonce))).drop
        ((to_hex (keccak
            (rlp_encode_sender_nonce (toBytes sender) nonce))).length - 40) :=
    rfl
  rw [e] at hch
  have hch2 := List.drop_subset _ _ hch
  simp only [to_hex, List.mem_cons, List.mem_flatten, List.mem_map] at hch2
  rcases hch2 with h | h | ⟨l, ⟨b, hbmem, rfl⟩, hchl⟩
  · exact Or.inl h
  · exact Or.inr (Or.inl h)
  · have hb256 : b < 256 := hb _ b hbmem
    simp only [byteToHex, List.mem_cons, List.not_mem_nil, or_false] at hchl
    rcases hchl with h | h
    · exact Or.inr (Or.inr ⟨b / 16, by omega, h⟩)
    · exact Or.inr (Or.inr ⟨b % 16, by omega, h⟩)

/-- C6 counterexample: the script does not read a remote domain id from
the environment file.  Two concrete environments that assign different
values to `REMOTE_DOMAIN` (and agree elsewhere) produce identical
output; the only environment variable consulted is
`REMOTE_TOKEN_MESSENGER_DEPLOYER`. -/
theorem precompute_ignores_remote_domain :
    getenv env_domain_zero remote_domain_key.toList
        ≠ getenv env_domain_one remote_domain_key.toList
    ∧ precompute_remote_token_messenger_address keccak_stub toBytes_stub gtc_stub
        env_domain_zero []
      = precompute_remote_token_messenger_address keccak_stub toBytes_stub gtc_stub
        env_domain_one [] :=
  ⟨by decide, rfl⟩

/-- C6 (amended): the script reads a deployer address (and no remote
domain id) from the environment file, obtains the deployer's nonce from
the remote node named by the command-line RPC URL, and appends (never
overwrites) exactly one line of the form
`REMOTE_TOKEN_MESSENGER_ADDRESS=0x<computed address>` to the `.env`
file, leaving all existing contents intact as an unchanged prefix. -/
theorem precompute_appends_one_line (keccak : List Nat → List Nat)
    (toBytes : List Char → List Nat) (gtc : List Char → Nat)
    (env : List (List Char × List Char)) (env_file : List Char)
    (deployer : List Char)
    (hd : getenv env deployer_key.toList = some deployer)
    (hb : ∀ s, ∀ b ∈ keccak s, b < 256) :
    precompute_remote_token_messenger_address keccak toBytes gtc env env_file
      = some (env_file ++ (address_line_head.toList
          ++ (compute_address keccak toBytes deployer (gtc deployer)
              ++ [Char.ofNat 10])))
    ∧ (address_line_head.toList
        ++ (compute_address keccak toBytes deployer (gtc deployer)
            ++ [Char.ofNat 10])).count (Char.ofNat 10) = 1 := by
  constructor
  · unfold precompute_remote_token_messenger_address
    rw [hd]
    simp [List.append_assoc]
  · rw [List.count_append, List.count_append]
    have h1 : (address_line_head.toList).count (Char.ofNat 10) = 0 := by decide
    have h2 : (compute_address keccak toBytes deployer (gtc deployer)).count
        (Char.ofNat 10) = 0 := by
      rw [List.count_eq_zero]
      intro hmem
      rcases compute_address_chars keccak toBytes deployer (gtc deployer) hb
          (Char.ofNat 10) hmem with h | h | ⟨n, hn, h⟩
      · exact absurd h (by decide)
      · exact absurd h (by decide)
      · exact (hexDigit_ne_newline n hn) h.symm
    rw [h1, h2]
    decide

/-- Witness for C6 (amended) at concrete primitives and a concrete
environment. -/
theorem precompute_appends_one_line_witness :
    getenv env_domain_zero deployer_key.toList = some deployer_value.toList ∧
    (∀ s, ∀ b ∈ keccak_stub s, b < 256) ∧
    (precompute_remote_token_messenger_address keccak_stub toBytes_stub gtc_stub
        env_domain_zero []
      = some (([] : List Char) ++ (address_line_head.toList
          ++ (compute_address keccak_stub toBytes_stub deployer_value.toList
              (gtc_stub deployer_value.toList) ++ [Char.ofNat 10])))
    ∧ (address_line_head.toList
        ++ (compute_address keccak_stub toBytes_stub deployer_value.toList
            (gtc_stub deployer_value.toList) ++ [Char.ofNat 10])).count
          (Char.ofNat 10) = 1) :=
  ⟨by decide, fun s b hmem => by simp [keccak_stub] at hmem; omega,
    precompute_appends_one_line keccak_stub toBytes_stub gtc_stub
      env_domain_zero [] deployer_value.toList (by decide)
      (fun s b hmem => by simp [keccak_stub] at hmem; omega)⟩

end CCTP
